import Mathlib

/-!
Verification of `process_request/anchore_scan.go` (kubevuln).

The Go file decodes a grype JSON report, attributes vulnerability matches to
image layers (`AnchoreStructConversion`), resolves per-package file lists
(`GetPackagesInLayer`), and injects/removes registry credentials around a
scan (`AddCredentialsToAnchoreConfiguratioFile`,
`RemoveCredentialsFromAnchoreConfiguratioFile`, `GetAnchoreScanRes`).

The embedding keeps the dynamic (interface-typed) parts of the report as a
JSON value type, and models Go's unchecked type assertions as an explicit
panic outcome, since the Go functions either succeed or crash.
-/

namespace KubeVuln

/-- Dynamic JSON values as Go `encoding/json` decodes them into interface
values. Objects are association lists (decoded Go maps have unique keys, and
indexing a map with a missing key yields the nil interface value, modelled
here as `JValue.null`, which is also how a JSON `null` decodes). Numeric
payloads (float64) are never inspected by the code under verification, so the
`num` constructor carries no data. -/
inductive JValue where
  | null : JValue
  | str : String → JValue
  | num : JValue
  | bool : Bool → JValue
  | arr : List JValue → JValue
  | obj : List (String × JValue) → JValue

/-- A Go runtime panic raised by a failed unchecked type assertion such as
`x.(map[string]interface...)` or `x.(string)` on a value of another shape. -/
inductive GoPanic where
  | interfaceConversion : GoPanic
deriving Repr, DecidableEq

/-- Go map indexing `m[k]` on a decoded JSON object: a missing key yields the
zero interface value, i.e. nil, modelled as `JValue.null`. -/
def goLookup : List (String × JValue) → String → JValue
  | [], _ => .null
  | (k, v) :: rest, key => if k = key then v else goLookup rest key

/-- The Go type assertion `v.(map[string]interface...)`: panics unless the
interface holds a decoded JSON object. -/
def JValue.asObj : JValue → Except GoPanic (List (String × JValue))
  | .obj fields => .ok fields
  | _ => .error .interfaceConversion

/-- The Go type assertion `v.([]interface...)`. -/
def JValue.asArr : JValue → Except GoPanic (List JValue)
  | .arr xs => .ok xs
  | _ => .error .interfaceConversion

/-- The Go type assertion `v.(string)`. -/
def JValue.asStr : JValue → Except GoPanic String
  | .str s => .ok s
  | _ => .error .interfaceConversion

/-! ### Report model (anchore_scan.go lines 97-262)

Struct fields that no function under verification ever reads (URLs, CVSS
scores, licenses, advisories, distro/descriptor metadata, ...) are omitted;
the fields below are exactly the ones the verified code paths touch. -/

/-- Go `Fix` (lines 140-143). -/
structure Fix where
  versions : List String
  state : String
deriving Repr, DecidableEq

/-- Go `VulnerabilityMetadata` (lines 117-125), restricted to read fields. -/
structure VulnerabilityMetadata where
  id : String
  dataSource : String
  severity : String
  description : String
deriving Repr, DecidableEq

/-- Go `Vulnerability` (lines 111-115); the Go struct embeds
`VulnerabilityMetadata`, modelled as the `meta` field. -/
structure Vulnerability where
  meta : VulnerabilityMetadata
  fix : Fix
deriving Repr, DecidableEq

/-- Go `Location` (lines 202-207); `FileSystemID` is the layer-digest join
key (json tag layerID). -/
structure Location where
  realPath : String
  fileSystemID : String
deriving Repr, DecidableEq

/-- Go `Package` (lines 172-182), restricted to read fields. -/
structure Package where
  name : String
  version : String
  locations : List Location
deriving Repr, DecidableEq

/-- Go `MatchDetails` (lines 150-154): `SearchedBy` is interface-typed; a
decoded absent or null field is the nil interface, i.e. `JValue.null`. -/
structure MatchDetails where
  searchedBy : JValue

/-- Go `Match` (lines 104-109). -/
structure Match where
  vulnerability : Vulnerability
  relatedVulnerabilities : List VulnerabilityMetadata
  matchDetails : List MatchDetails
  artifact : Package

/-- Go `source` (lines 223-226): `Target` is interface-typed. -/
structure Source where
  type : String
  target : JValue

/-- Go `JSONReport` (lines 97-102): `Source` is a pointer, hence `Option`;
the `Distro`/`Descriptor` metadata fields are never read by the code under
verification and are omitted. The Go field `Matches` is called `matchList`
here because `matches` is a reserved word in Lean. -/
structure JSONReport where
  matchList : List Match
  source : Option Source

/-! ### Output model: the `cs` (capacketsgo/containerscan) types.

These types live in an external dependency; only the fields the Go code
assigns are modelled. -/

namespace cs

/-- `cs.FixedIn`, per the composite literal at lines 535-539. -/
structure FixedIn where
  name : String
  imgTag : String
  version : String
deriving Repr, DecidableEq

/-- `cs.Vulnerability`, per the composite literal at lines 525-541. -/
structure Vulnerability where
  name : String
  imgHash : String
  imgTag : String
  relatedPackageName : String
  packageVersion : String
  link : String
  description : String
  severity : String
  fixes : List FixedIn
deriving Repr, DecidableEq

/-- `cs.ScanResultLayer`, per the assignments at lines 504-508. -/
structure ScanResultLayer where
  layerHash : String
  parentLayerHash : String
  vulnerabilities : List Vulnerability
deriving Repr, DecidableEq

/-- `cs.PackageFile`. -/
structure PackageFile where
  filename : String
deriving Repr, DecidableEq

/-- `cs.LinuxPackage`, restricted to the two fields the Go code assigns
(`Files`, `PackageName`); its Go zero value has both fields empty. -/
structure LinuxPackage where
  packageName : String
  files : List PackageFile
deriving Repr, DecidableEq

end cs

/-! ### AnchoreStructConversion (lines 494-553) -/

/-- The `cs.Vulnerability` composite literal built at lines 513-541 for a
match already known to have a location in the current layer. `manifestDigest`
and `userInput` are the results of the two string type assertions on the
target map performed inside the literal. -/
def mkVuln (manifestDigest userInput : String) (m : Match) : cs.Vulnerability :=
  let version : String :=
    match m.vulnerability.fix.versions with
    | v :: _ => v
    | [] => ""
  let description : String :=
    match m.relatedVulnerabilities with
    | r :: _ => r.description
    | [] => ""
  { name := m.vulnerability.meta.id
    imgHash := manifestDigest
    imgTag := userInput
    relatedPackageName := m.artifact.name
    packageVersion := m.artifact.version
    link := m.vulnerability.meta.dataSource
    description := description
    severity := m.vulnerability.meta.severity
    fixes := [{ name := m.vulnerability.fix.state
                imgTag := userInput
                version := version }] }

/-- The location loop at lines 511-545: scan the locations of one match in
order, and on the first one whose `FileSystemID` equals the layer digest,
build the vulnerability record and break. Building the record performs the
`manifestDigest`/`userInput` string assertions on the target map, which can
panic; a match with no matching location builds nothing and cannot panic. -/
def vulnForMatch (targetMap : List (String × JValue)) (digest : String) (m : Match) :
    Except GoPanic (Option cs.Vulnerability) :=
  if m.artifact.locations.any (fun loc => loc.fileSystemID == digest) then
    match (goLookup targetMap "manifestDigest").asStr with
    | .error e => .error e
    | .ok manifestDigest =>
      match (goLookup targetMap "userInput").asStr with
      | .error e => .error e
      | .ok userInput => .ok (some (mkVuln manifestDigest userInput m))
  else
    .ok none

/-- The match loop at lines 510-546: the vulnerability list of one layer,
appending at most one record per match, in match order. -/
def vulnsForLayer (targetMap : List (String × JValue)) (digest : String) :
    List Match → Except GoPanic (List cs.Vulnerability)
  | [] => .ok []
  | m :: rest =>
    match vulnForMatch targetMap digest m with
    | .error e => .error e
    | .ok v =>
      match vulnsForLayer targetMap digest rest with
      | .error e => .error e
      | .ok vs =>
        .ok (match v with
             | some x => x :: vs
             | none => vs)

/-- The layer loop at lines 502-549: each element of the decoded layers array
is asserted to be an object with a string digest (both assertions can panic),
its vulnerability list is computed, and `parentLayerHash` is carried forward
to the next iteration (initially the empty string). -/
def convertLayers (targetMap : List (String × JValue)) (ms : List Match)
    (parentLayerHash : String) : List JValue → Except GoPanic (List cs.ScanResultLayer)
  | [] => .ok []
  | l :: rest =>
    match l.asObj with
    | .error e => .error e
    | .ok layer =>
      match (goLookup layer "digest").asStr with
      | .error e => .error e
      | .ok digest =>
        match vulnsForLayer targetMap digest ms with
        | .error e => .error e
        | .ok vulns =>
          match convertLayers targetMap ms digest rest with
          | .error e => .error e
          | .ok tail =>
            .ok ({ layerHash := digest
                   parentLayerHash := parentLayerHash
                   vulnerabilities := vulns } :: tail)

/-- `AnchoreStructConversion` (lines 494-553). The Go function returns
`(&layersList, nil)`: its declared error result is always nil, so the only
failure mode is a runtime panic from an unchecked type assertion
(`Source.Target.(map[string]interface...)` at line 500, the layers/digest
assertions, and the `manifestDigest`/`userInput` assertions), modelled as
the `Except.error` case. A nil `Source` returns the empty list. -/
def AnchoreStructConversion (report : JSONReport) : Except GoPanic (List cs.ScanResultLayer) :=
  match report.source with
  | none => .ok []
  | some src =>
    match src.target.asObj with
    | .error e => .error e
    | .ok targetMap =>
      match (goLookup targetMap "layers").asArr with
      | .error e => .error e
      | .ok layers => convertLayers targetMap report.matchList "" layers

/-! ### Characterization of the conversion on well-shaped targets -/

/-- Extracts the digest strings from a decoded layers array when every
element is an object carrying a string `digest` field; `none` otherwise. -/
def layerDigests? : List JValue → Option (List String)
  | [] => some []
  | .obj fields :: rest =>
    match goLookup fields "digest" with
    | .str d =>
      match layerDigests? rest with
      | some ds => some (d :: ds)
      | none => none
    | _ => none
  | _ :: _ => none

/-- The vulnerability list the conversion produces for one layer digest: one
record per match having at least one location in that layer, in match
order. -/
def vulnsOfLayerSpec (md ui : String) (ms : List Match) (digest : String) :
    List cs.Vulnerability :=
  (ms.filter (fun m => m.artifact.locations.any (fun loc => loc.fileSystemID == digest))).map
    (mkVuln md ui)

/-- The layer list the conversion produces from the digest sequence, with the
parent hash threaded through. -/
def attributeSpec (md ui : String) (ms : List Match) (parent : String) :
    List String → List cs.ScanResultLayer
  | [] => []
  | d :: rest =>
    { layerHash := d
      parentLayerHash := parent
      vulnerabilities := vulnsOfLayerSpec md ui ms d } :: attributeSpec md ui ms d rest

theorem vulnsForLayer_eq (targetMap : List (String × JValue)) (md ui digest : String)
    (hmd : goLookup targetMap "manifestDigest" = .str md)
    (hui : goLookup targetMap "userInput" = .str ui) :
    ∀ ms : List Match, vulnsForLayer targetMap digest ms =
      .ok (vulnsOfLayerSpec md ui ms digest)
  | [] => rfl
  | m :: rest => by
    have ih := vulnsForLayer_eq targetMap md ui digest hmd hui rest
    by_cases h : (m.artifact.locations.any (fun loc => loc.fileSystemID == digest)) = true
    · simp [vulnsForLayer, vulnForMatch, h, hmd, hui, JValue.asStr, ih, vulnsOfLayerSpec,
        List.filter_cons]
    · simp [vulnsForLayer, vulnForMatch, h, ih, vulnsOfLayerSpec, List.filter_cons]

theorem convertLayers_eq (targetMap : List (String × JValue)) (ms : List Match)
    (md ui : String)
    (hmd : goLookup targetMap "manifestDigest" = .str md)
    (hui : goLookup targetMap "userInput" = .str ui) :
    ∀ (ls : List JValue) (parent : String) (ds : List String),
      layerDigests? ls = some ds →
      convertLayers targetMap ms parent ls = .ok (attributeSpec md ui ms parent ds)
  | [], parent, ds, h => by
    simp only [layerDigests?, Option.some.injEq] at h
    subst h
    rfl
  | .obj fields :: rest, parent, ds, h => by
    simp only [layerDigests?] at h
    cases hd : goLookup fields "digest" with
    | str d =>
      rw [hd] at h
      cases hr : layerDigests? rest with
      | some ds2 =>
        rw [hr] at h
        simp only [Option.some.injEq] at h
        subst h
        have ih := convertLayers_eq targetMap ms md ui hmd hui rest d ds2 hr
        simp [convertLayers, JValue.asObj, hd, JValue.asStr,
          vulnsForLayer_eq targetMap md ui d hmd hui ms, ih, attributeSpec]
      | none => rw [hr] at h; cases h
    | null => rw [hd] at h; cases h
    | num => rw [hd] at h; cases h
    | bool b => rw [hd] at h; cases h
    | arr xs => rw [hd] at h; cases h
    | obj fs => rw [hd] at h; cases h
  | .null :: rest, parent, ds, h => by cases h
  | .str s :: rest, parent, ds, h => by cases h
  | .num :: rest, parent, ds, h => by cases h
  | .bool b :: rest, parent, ds, h => by cases h
  | .arr xs :: rest, parent, ds, h => by cases h

/-- Full characterization of `AnchoreStructConversion` on a report whose
target has the shape the Go type assertions expect. -/
theorem AnchoreStructConversion_eq (r : JSONReport) (src : Source)
    (tf : List (String × JValue)) (ls : List JValue) (ds : List String) (md ui : String)
    (hs : r.source = some src) (ht : src.target = .obj tf)
    (hl : goLookup tf "layers" = .arr ls)
    (hmd : goLookup tf "manifestDigest" = .str md)
    (hui : goLookup tf "userInput" = .str ui)
    (hds : layerDigests? ls = some ds) :
    AnchoreStructConversion r = .ok (attributeSpec md ui r.matchList "" ds) := by
  simp [AnchoreStructConversion, hs, ht, JValue.asObj, hl, JValue.asArr,
    convertLayers_eq tf r.matchList md ui hmd hui ls "" ds hds]

theorem attributeSpec_length (md ui : String) (ms : List Match) :
    ∀ (parent : String) (ds : List String),
      (attributeSpec md ui ms parent ds).length = ds.length
  | _, [] => rfl
  | parent, d :: rest => by
    simp [attributeSpec, attributeSpec_length md ui ms d rest]

theorem attributeSpec_getElem? (md ui : String) (ms : List Match) :
    ∀ (parent : String) (ds : List String) (i : Nat) (sr : cs.ScanResultLayer),
      (attributeSpec md ui ms parent ds)[i]? = some sr →
      sr.layerHash = ds.getD i "" ∧
      sr.parentLayerHash = (if i = 0 then parent else ds.getD (i - 1) "") ∧
      sr.vulnerabilities = vulnsOfLayerSpec md ui ms (ds.getD i "")
  | parent, [], i, sr, h => by simp [attributeSpec] at h
  | parent, d :: rest, 0, sr, h => by
    simp only [attributeSpec, List.getElem?_cons_zero, Option.some.injEq] at h
    subst h
    simp [List.getD]
  | parent, d :: rest, i + 1, sr, h => by
    simp only [attributeSpec, List.getElem?_cons_succ] at h
    have ih := attributeSpec_getElem? md ui ms d rest i sr h
    rcases ih with ⟨h1, h2, h3⟩
    refine ⟨by simpa using h1, ?_, by simpa using h3⟩
    cases i with
    | zero => simpa using h2
    | succ j => simpa using h2

theorem mkVuln_fixes (md ui : String) (m : Match) :
    (mkVuln md ui m).fixes =
      [{ name := m.vulnerability.fix.state
         imgTag := ui
         version := m.vulnerability.fix.versions.headD "" }] := by
  cases hv : m.vulnerability.fix.versions <;> simp [mkVuln, hv]

theorem mkVuln_description (md ui : String) (m : Match) :
    (mkVuln md ui m).description =
      (m.relatedVulnerabilities.map VulnerabilityMetadata.description).headD "" := by
  cases hr : m.relatedVulnerabilities <;> simp [mkVuln, hr]

/-! ### Concrete report used by the witnesses (the scenario of spec section 8) -/

def wCurlMatch : Match :=
  { vulnerability :=
      { meta := { id := "CVE-2020-0001"
                  dataSource := "https://nvd.example/CVE-2020-0001"
                  severity := "High"
                  description := "top-level description" }
        fix := { versions := ["7.68.0-1", "7.68.0-2"], state := "fixed" } }
    relatedVulnerabilities :=
      [{ id := "REL-1", dataSource := "", severity := "", description := "related description" }]
    matchDetails := []
    artifact :=
      { name := "curl"
        version := "7.64.0"
        locations := [{ realPath := "/usr/bin/curl", fileSystemID := "sha256:bbb" }] } }

def wTargetFields : List (String × JValue) :=
  [("userInput", .str "img:tag"),
   ("imageID", .str "id0"),
   ("manifestDigest", .str "sha256:mani"),
   ("layers", .arr
      [.obj [("mediaType", .str "mt"), ("digest", .str "sha256:aaa"), ("size", .num)],
       .obj [("mediaType", .str "mt"), ("digest", .str "sha256:bbb"), ("size", .num)]])]

def wReport : JSONReport :=
  { matchList := [wCurlMatch]
    source := some { type := "image", target := .obj wTargetFields } }

/-! ### Claims about AnchoreStructConversion -/

/-- Claim C1: for every report whose `source.target` has the shape the
conversion asserts (an object with string `manifestDigest` and `userInput`
and a `layers` array whose digests are `ds`), the conversion succeeds and
returns exactly `ds.length` layer entries in report order, where entry `i`
has `layerHash` equal to digest `i` and `parentLayerHash` equal to digest
`i - 1` (empty string for `i = 0`). Layers with no matching vulnerabilities
still contribute their entries, which the length equality counts. -/
theorem anchoreConversion_layerChain (r : JSONReport) (src : Source)
    (tf : List (String × JValue)) (ls : List JValue) (ds : List String) (md ui : String)
    (hs : r.source = some src) (ht : src.target = .obj tf)
    (hl : goLookup tf "layers" = .arr ls)
    (hmd : goLookup tf "manifestDigest" = .str md)
    (hui : goLookup tf "userInput" = .str ui)
    (hds : layerDigests? ls = some ds) :
    ∃ out, AnchoreStructConversion r = .ok out ∧
      out.length = ds.length ∧
      ∀ i sr, out[i]? = some sr →
        sr.layerHash = ds.getD i "" ∧
        sr.parentLayerHash = (if i = 0 then "" else ds.getD (i - 1) "") := by
  refine ⟨attributeSpec md ui r.matchList "" ds,
    AnchoreStructConversion_eq r src tf ls ds md ui hs ht hl hmd hui hds,
    attributeSpec_length md ui r.matchList "" ds, ?_⟩
  intro i sr h
  have hg := attributeSpec_getElem? md ui r.matchList "" ds i sr h
  exact ⟨hg.1, hg.2.1⟩

theorem anchoreConversion_layerChain_witness :
    ∃ out, AnchoreStructConversion wReport = .ok out ∧
      out.length = (["sha256:aaa", "sha256:bbb"] : List String).length ∧
      ∀ i sr, out[i]? = some sr →
        sr.layerHash = (["sha256:aaa", "sha256:bbb"] : List String).getD i "" ∧
        sr.parentLayerHash =
          (if i = 0 then ""
           else (["sha256:aaa", "sha256:bbb"] : List String).getD (i - 1) "") :=
  anchoreConversion_layerChain wReport _ wTargetFields _ ["sha256:aaa", "sha256:bbb"]
    "sha256:mani" "img:tag" rfl rfl rfl rfl rfl rfl

/-- Claim C2: under the same shape hypotheses, layer `i`'s vulnerability list
is exactly one record per match having at least one location whose
`FileSystemID` equals digest `i` (the filter/map form: duplicate locations in
the same layer still give one record, and a match with no matching location
gives none), with no error; the explicit count form is stated alongside. -/
theorem anchoreConversion_oneRecordPerMatchPerLayer (r : JSONReport) (src : Source)
    (tf : List (String × JValue)) (ls : List JValue) (ds : List String) (md ui : String)
    (hs : r.source = some src) (ht : src.target = .obj tf)
    (hl : goLookup tf "layers" = .arr ls)
    (hmd : goLookup tf "manifestDigest" = .str md)
    (hui : goLookup tf "userInput" = .str ui)
    (hds : layerDigests? ls = some ds) :
    ∃ out, AnchoreStructConversion r = .ok out ∧
      ∀ i sr, out[i]? = some sr →
        sr.vulnerabilities =
          (r.matchList.filter (fun m =>
            m.artifact.locations.any (fun loc => loc.fileSystemID == ds.getD i ""))).map
            (mkVuln md ui) ∧
        sr.vulnerabilities.length =
          r.matchList.countP (fun m =>
            m.artifact.locations.any (fun loc => loc.fileSystemID == ds.getD i "")) := by
  refine ⟨attributeSpec md ui r.matchList "" ds,
    AnchoreStructConversion_eq r src tf ls ds md ui hs ht hl hmd hui hds, ?_⟩
  intro i sr h
  have hg := (attributeSpec_getElem? md ui r.matchList "" ds i sr h).2.2
  refine ⟨hg, ?_⟩
  rw [hg]
  simp [vulnsOfLayerSpec, List.countP_eq_length_filter]

theorem anchoreConversion_oneRecordPerMatchPerLayer_witness :
    ∃ out, AnchoreStructConversion wReport = .ok out ∧
      ∀ i sr, out[i]? = some sr →
        sr.vulnerabilities =
          (wReport.matchList.filter (fun m =>
            m.artifact.locations.any (fun loc =>
              loc.fileSystemID == (["sha256:aaa", "sha256:bbb"] : List String).getD i ""))).map
            (mkVuln "sha256:mani" "img:tag") ∧
        sr.vulnerabilities.length =
          wReport.matchList.countP (fun m =>
            m.artifact.locations.any (fun loc =>
              loc.fileSystemID == (["sha256:aaa", "sha256:bbb"] : List String).getD i "")) :=
  anchoreConversion_oneRecordPerMatchPerLayer wReport _ wTargetFields _
    ["sha256:aaa", "sha256:bbb"] "sha256:mani" "img:tag" rfl rfl rfl rfl rfl rfl

/-- Claim C7: every record the conversion emits takes its fix version from
the head of the match's fix-version list (empty string when the list is
empty), its description from the head of the related-vulnerability
descriptions (empty string when none; the match's own top-level description
field never reaches the record), and its fix-record name carries the match's
fix state string, with `imgTag` equal to the target's `userInput`. -/
theorem anchoreConversion_fixSelection (r : JSONReport) (src : Source)
    (tf : List (String × JValue)) (ls : List JValue) (ds : List String) (md ui : String)
    (hs : r.source = some src) (ht : src.target = .obj tf)
    (hl : goLookup tf "layers" = .arr ls)
    (hmd : goLookup tf "manifestDigest" = .str md)
    (hui : goLookup tf "userInput" = .str ui)
    (hds : layerDigests? ls = some ds) :
    ∃ out, AnchoreStructConversion r = .ok out ∧
      ∀ i sr, out[i]? = some sr → ∀ v ∈ sr.vulnerabilities,
        ∃ m, m ∈ r.matchList ∧
          (m.artifact.locations.any (fun loc => loc.fileSystemID == ds.getD i "")) = true ∧
          v.fixes = [{ name := m.vulnerability.fix.state
                       imgTag := ui
                       version := m.vulnerability.fix.versions.headD "" }] ∧
          v.description =
            (m.relatedVulnerabilities.map VulnerabilityMetadata.description).headD "" := by
  refine ⟨attributeSpec md ui r.matchList "" ds,
    AnchoreStructConversion_eq r src tf ls ds md ui hs ht hl hmd hui hds, ?_⟩
  intro i sr h v hv
  have hg := (attributeSpec_getElem? md ui r.matchList "" ds i sr h).2.2
  rw [hg] at hv
  simp only [vulnsOfLayerSpec, List.mem_map, List.mem_filter] at hv
  obtain ⟨m, ⟨hm, hloc⟩, rfl⟩ := hv
  exact ⟨m, hm, hloc, mkVuln_fixes md ui m, mkVuln_description md ui m⟩

theorem anchoreConversion_fixSelection_witness :
    ∃ out, AnchoreStructConversion wReport = .ok out ∧
      ∀ i sr, out[i]? = some sr → ∀ v ∈ sr.vulnerabilities,
        ∃ m, m ∈ wReport.matchList ∧
          (m.artifact.locations.any (fun loc =>
            loc.fileSystemID == (["sha256:aaa", "sha256:bbb"] : List String).getD i "")) = true ∧
          v.fixes = [{ name := m.vulnerability.fix.state
                       imgTag := "img:tag"
                       version := m.vulnerability.fix.versions.headD "" }] ∧
          v.description =
            (m.relatedVulnerabilities.map VulnerabilityMetadata.description).headD "" :=
  anchoreConversion_fixSelection wReport _ wTargetFields _
    ["sha256:aaa", "sha256:bbb"] "sha256:mani" "img:tag" rfl rfl rfl rfl rfl rfl

/-- Claim C10: a report whose `source` pointer is nil converts to the empty
layer list with no error (and no panic). -/
theorem anchoreConversion_missingSource (r : JSONReport) (h : r.source = none) :
    AnchoreStructConversion r = .ok [] := by
  simp [AnchoreStructConversion, h]

theorem anchoreConversion_missingSource_witness :
    AnchoreStructConversion { matchList := [wCurlMatch], source := none } = .ok [] :=
  anchoreConversion_missingSource { matchList := [wCurlMatch], source := none } rfl

/-- A report whose `source.target` decoded to a JSON string rather than an
object: the very first unchecked type assertion of the conversion
(`Source.Target.(map[string]interface...)`, line 500) fails on it. -/
def malformedTargetReport : JSONReport :=
  { matchList := []
    source := some { type := "image", target := .str "not an object" } }

/-- Claim C3 (code bug): on a malformed target the conversion does not
produce any structured error value; the Go function would panic on the
unchecked type assertion (modelled as the `Except.error .interfaceConversion`
outcome), and no `MalformedReportError` exists anywhere in the code. The
decode step of `GetAnchoreScanRes` likewise ignores the `json.Unmarshal`
error (line 413). -/
theorem anchoreConversion_crashOnMalformedTarget :
    AnchoreStructConversion malformedTargetReport = .error .interfaceConversion := rfl

/-! ### GetPackagesInLayer (lines 419-492) -/

/-- Association lookup, used for the featureToFileList cache and the
pkgResolved remap table (Go map indexing with the two-result form). -/
def assocLookup {α : Type} : List (String × α) → String → Option α
  | [], _ => none
  | (k, v) :: rest, key => if k = key then some v else assocLookup rest key

/-- Result of `PackageHandler.readFileListForPackage`: Go returns
`(*[]string, error)`. On success the pointer carries the file list (the code
dereferences it unconditionally, so a correct handler returns it non-nil);
on error the pointer may be nil (`none`) or still carry a part of the list,
which the code keeps and extends (lines 452-455). -/
inductive ReadResult where
  | ok (files : List String)
  | err (partFiles : Option (List String))
deriving Repr, DecidableEq

/-- The PackageHandler capability interface consumed by GetPackagesInLayer:
a deterministic model of `readFileListForPackage` plus `GetType`. -/
structure PackageHandler where
  readFileListForPackage : String → ReadResult
  getType : String

/-- `convertToPkgFiles` (lines 419-428): wrap each filename. -/
def convertToPkgFiles (fileList : List String) : List cs.PackageFile :=
  fileList.map (fun file => { filename := file })

/-- The per-name resolution of lines 450-469, instrumented with the list of
names passed to `readFileListForPackage`, in call order. On a read error the
partial result (or the fresh empty list) is kept, and — only when the
manager type is dpkg and the pkgResolved table maps the name — every real
name is retried, appending each successful sub-result. -/
def resolveFileListT (pkgResolved : List (String × List String)) (h : PackageHandler)
    (packageName : String) : List String × List String :=
  match h.readFileListForPackage packageName with
  | .ok files => (files, [packageName])
  | .err partFiles =>
    let fileList := partFiles.getD []
    match assocLookup pkgResolved packageName with
    | some realPkgNames =>
      if h.getType == "dpkg" then
        (realPkgNames.foldl (fun acc pkgname =>
            match h.readFileListForPackage pkgname with
            | .ok tmp => acc ++ tmp
            | .err _ => acc) fileList,
         packageName :: realPkgNames)
      else (fileList, [packageName])
    | none => (fileList, [packageName])

/-- Loop state of GetPackagesInLayer: the featureToFileList cache, the single
linuxPackage record the loop mutates across iterations, and (instrumentation)
the names passed to `readFileListForPackage` so far, in call order. -/
structure ResolveState where
  featureToFileList : List (String × List cs.PackageFile)
  linuxPackage : cs.LinuxPackage
  queries : List String
deriving Repr, DecidableEq

/-- The state at line 432-436: empty cache, zero-valued linuxPackage. -/
def initResolveState : ResolveState :=
  { featureToFileList := []
    linuxPackage := { packageName := "", files := [] }
    queries := [] }

/-- Lines 449-482: the loop body run for one extracted package name. On a
cache hit the cached files are written to linuxPackage.Files with no read.
On a miss the file list is resolved (possibly with remap retries); only a
non-empty result is cached and written to linuxPackage.Files — an empty one
leaves both the cache and linuxPackage.Files untouched. The name is written
to linuxPackage.PackageName in every branch (line 482). -/
def processName (pkgResolved : List (String × List String)) (h : PackageHandler)
    (s : ResolveState) (packageName : String) : ResolveState :=
  match assocLookup s.featureToFileList packageName with
  | some files =>
    { s with linuxPackage := { packageName := packageName, files := files } }
  | none =>
    let res := resolveFileListT pkgResolved h packageName
    if res.1.length > 0 then
      let files := convertToPkgFiles res.1
      { featureToFileList := s.featureToFileList ++ [(packageName, files)]
        linuxPackage := { packageName := packageName, files := files }
        queries := s.queries ++ res.2 }
    else
      { s with
        linuxPackage := { s.linuxPackage with packageName := packageName }
        queries := s.queries ++ res.2 }

/-- Lines 442-448: extract `searchedBy.package.name`. A nil `SearchedBy`, a
nil `package` entry or a nil `name` entry skips the detail; a non-nil value
of the wrong shape panics on the corresponding unchecked type assertion. -/
def nameOfSearchedBy : JValue → Except GoPanic (Option String)
  | .null => .ok none
  | sb =>
    match sb.asObj with
    | .error e => .error e
    | .ok m =>
      match goLookup m "package" with
      | .null => .ok none
      | pv =>
        match pv.asObj with
        | .error e => .error e
        | .ok pm =>
          match goLookup pm "name" with
          | .null => .ok none
          | nv =>
            match nv.asStr with
            | .error e => .error e
            | .ok n => .ok (some n)

/-- The inner loop over one match's MatchDetails (lines 441-486). -/
def processMatchDetails (pkgResolved : List (String × List String)) (h : PackageHandler)
    (s : ResolveState) : List MatchDetails → Except GoPanic ResolveState
  | [] => .ok s
  | d :: rest =>
    match nameOfSearchedBy d.searchedBy with
    | .error e => .error e
    | .ok none => processMatchDetails pkgResolved h s rest
    | .ok (some n) => processMatchDetails pkgResolved h (processName pkgResolved h s n) rest

/-- The outer loop over the report's matches (lines 440-487). -/
def processMatches (pkgResolved : List (String × List String)) (h : PackageHandler)
    (s : ResolveState) : List Match → Except GoPanic ResolveState
  | [] => .ok s
  | m :: rest =>
    match processMatchDetails pkgResolved h s m.matchDetails with
    | .error e => .error e
    | .ok s2 => processMatches pkgResolved h s2 rest

/-- `GetPackagesInLayer` (lines 430-492), instrumented with the query trace
and parametrized by the pkgResolved remap table (declared at line 434 as a
local variable the loop reads but never assigns, hence the nil map; see
`GetPackagesInLayer` below). Returns the packages list — a single append of
the shared linuxPackage record after both loops finish (line 488) — together
with the query trace, or the panic raised while inspecting `searchedBy`. A
nil package manager performs no work. -/
def GetPackagesInLayerAux (pkgResolved : List (String × List String)) (_layer : String)
    (report : JSONReport) (packageManager : Option PackageHandler) :
    Except GoPanic (List cs.LinuxPackage × List String) :=
  match packageManager with
  | none => .ok ([], [])
  | some h =>
    match processMatches pkgResolved h initResolveState report.matchList with
    | .error e => .error e
    | .ok s => .ok ([s.linuxPackage], s.queries)

/-- `GetPackagesInLayer` as the source ships it: the pkgResolved table it
consults is the nil (empty) map, since the local variable is never assigned. -/
def GetPackagesInLayer (_layer : String) (report : JSONReport)
    (packageManager : Option PackageHandler) :
    Except GoPanic (List cs.LinuxPackage × List String) :=
  GetPackagesInLayerAux [] _layer report packageManager

/-! ### Resolver lemmas -/

/-- Processing a plain list of extracted package names: the composition of
`processName` steps, which is what the two loops perform on the names they
extract from searchedBy, in order. -/
def processNames (pkgResolved : List (String × List String)) (h : PackageHandler)
    (s : ResolveState) : List String → ResolveState
  | [] => s
  | n :: rest => processNames pkgResolved h (processName pkgResolved h s n) rest

/-- A searchedBy object carrying just package.name, as grype emits it. -/
def mkSearchedBy (packageName : String) : JValue :=
  .obj [("package", .obj [("name", .str packageName)])]

def detailFor (packageName : String) : MatchDetails :=
  { searchedBy := mkSearchedBy packageName }

def dummyVulnerability : Vulnerability :=
  { meta := { id := "", dataSource := "", severity := "", description := "" }
    fix := { versions := [], state := "" } }

def dummyArtifact : Package :=
  { name := "", version := "", locations := [] }

/-- A report holding one match whose details name the given packages, in
order; used to drive the resolver. -/
def reportOfNames (names : List String) : JSONReport :=
  { matchList := [{ vulnerability := dummyVulnerability
                    relatedVulnerabilities := []
                    matchDetails := names.map detailFor
                    artifact := dummyArtifact }]
    source := none }

theorem nameOfSearchedBy_mk (n : String) :
    nameOfSearchedBy (mkSearchedBy n) = .ok (some n) := rfl

theorem processMatchDetails_names (pkgResolved : List (String × List String))
    (h : PackageHandler) :
    ∀ (s : ResolveState) (names : List String),
      processMatchDetails pkgResolved h s (names.map detailFor) =
        .ok (processNames pkgResolved h s names)
  | _, [] => rfl
  | s, n :: rest => by
    simp only [List.map_cons, processMatchDetails, detailFor, nameOfSearchedBy_mk,
      processNames]
    exact processMatchDetails_names pkgResolved h _ rest

/-- GetPackagesInLayerAux on a name-list report is the processNames fold. -/
theorem getPackagesAux_names (pkgResolved : List (String × List String))
    (h : PackageHandler) (layer : String) (names : List String) :
    GetPackagesInLayerAux pkgResolved layer (reportOfNames names) (some h) =
      .ok ([(processNames pkgResolved h initResolveState names).linuxPackage],
           (processNames pkgResolved h initResolveState names).queries) := by
  simp [GetPackagesInLayerAux, reportOfNames, processMatches,
    processMatchDetails_names pkgResolved h initResolveState names]

theorem assocLookup_append {α : Type} (c : List (String × α)) (k : String) (v : α)
    (n : String) :
    assocLookup (c ++ [(k, v)]) n =
      (match assocLookup c n with
       | some w => some w
       | none => if k = n then some v else none) := by
  induction c with
  | nil => simp [assocLookup]
  | cons p rest ih =>
    obtain ⟨k2, v2⟩ := p
    by_cases hk : k2 = n
    · simp [assocLookup, hk]
    · simp [assocLookup, hk, ih]

theorem processName_cache_mono (pkgResolved : List (String × List String))
    (h : PackageHandler) (s : ResolveState) (m n : String) (v : List cs.PackageFile)
    (hv : assocLookup s.featureToFileList n = some v) :
    assocLookup (processName pkgResolved h s m).featureToFileList n = some v := by
  unfold processName
  cases hm : assocLookup s.featureToFileList m with
  | some files => simpa using hv
  | none =>
    by_cases hl : (resolveFileListT pkgResolved h m).1.length > 0
    · simp [hl, assocLookup_append, hv]
    · simpa [hl] using hv

theorem processNames_cache_mono (pkgResolved : List (String × List String))
    (h : PackageHandler) :
    ∀ (names : List String) (s : ResolveState) (n : String) (v : List cs.PackageFile),
      assocLookup s.featureToFileList n = some v →
      assocLookup (processNames pkgResolved h s names).featureToFileList n = some v
  | [], _, _, _, hv => hv
  | m :: rest, s, n, v, hv =>
    processNames_cache_mono pkgResolved h rest _ n v
      (processName_cache_mono pkgResolved h s m n v hv)

/-- Every cache entry holds exactly the converted result of resolving its own
name, and only non-empty resolutions are cached. -/
def CacheSound (pkgResolved : List (String × List String)) (h : PackageHandler)
    (s : ResolveState) : Prop :=
  ∀ n v, assocLookup s.featureToFileList n = some v →
    v = convertToPkgFiles (resolveFileListT pkgResolved h n).1 ∧
    (resolveFileListT pkgResolved h n).1 ≠ []

theorem initResolveState_cacheSound (pkgResolved : List (String × List String))
    (h : PackageHandler) : CacheSound pkgResolved h initResolveState := by
  intro n v hv
  simp [initResolveState, assocLookup] at hv

theorem processName_cacheSound (pkgResolved : List (String × List String))
    (h : PackageHandler) (s : ResolveState) (m : String)
    (hs : CacheSound pkgResolved h s) :
    CacheSound pkgResolved h (processName pkgResolved h s m) := by
  intro n v hv
  unfold processName at hv
  cases hm : assocLookup s.featureToFileList m with
  | some files =>
    rw [hm] at hv
    exact hs n v hv
  | none =>
    rw [hm] at hv
    by_cases hl : (resolveFileListT pkgResolved h m).1.length > 0
    · rw [if_pos hl] at hv
      simp only [assocLookup_append] at hv
      cases hc : assocLookup s.featureToFileList n with
      | some w =>
        rw [hc] at hv
        have hv2 : some w = some v := hv
        injection hv2 with hwv
        subst hwv
        exact hs n w hc
      | none =>
        rw [hc] at hv
        by_cases hmn : m = n
        · rw [if_pos hmn] at hv
          subst hmn
          refine ⟨by simpa using hv.symm, ?_⟩
          intro hcon
          rw [hcon] at hl
          simp at hl
        · rw [if_neg hmn] at hv
          cases hv
    · rw [if_neg hl] at hv
      exact hs n v hv

theorem processNames_cacheSound (pkgResolved : List (String × List String))
    (h : PackageHandler) :
    ∀ (names : List String) (s : ResolveState),
      CacheSound pkgResolved h s →
      CacheSound pkgResolved h (processNames pkgResolved h s names)
  | [], _, hs => hs
  | m :: rest, s, hs =>
    processNames_cacheSound pkgResolved h rest _
      (processName_cacheSound pkgResolved h s m hs)

/-- Processing a name whose resolution is non-empty leaves that name cached. -/
theorem processName_self_cached (pkgResolved : List (String × List String))
    (h : PackageHandler) (s : ResolveState) (n : String)
    (hne : (resolveFileListT pkgResolved h n).1 ≠ []) :
    ∃ v, assocLookup (processName pkgResolved h s n).featureToFileList n = some v := by
  unfold processName
  cases hm : assocLookup s.featureToFileList n with
  | some files => exact ⟨files, by simpa using hm⟩
  | none =>
    have hl : (resolveFileListT pkgResolved h n).1.length > 0 :=
      List.length_pos.mpr hne
    refine ⟨convertToPkgFiles (resolveFileListT pkgResolved h n).1, ?_⟩
    simp [hl, assocLookup_append, hm]

/-- A cache hit consumes no query and copies the cached value onto the
shared record. -/
theorem processName_hit (pkgResolved : List (String × List String))
    (h : PackageHandler) (s : ResolveState) (n : String) (v : List cs.PackageFile)
    (hv : assocLookup s.featureToFileList n = some v) :
    processName pkgResolved h s n =
      { s with linuxPackage := { packageName := n, files := v } } := by
  simp [processName, hv]

theorem processNames_append (pkgResolved : List (String × List String))
    (h : PackageHandler) :
    ∀ (as bs : List String) (s : ResolveState),
      processNames pkgResolved h s (as ++ bs) =
        processNames pkgResolved h (processNames pkgResolved h s as) bs
  | [], _, _ => rfl
  | a :: rest, bs, s =>
    processNames_append pkgResolved h rest bs (processName pkgResolved h s a)

/-! ### Claims about the resolver -/

/-- The fold over the remap retries equals the concatenation of the
successful sub-query results appended to the starting list. -/
theorem remapFold_eq_join (h : PackageHandler) :
    ∀ (realNames : List String) (init : List String),
      realNames.foldl (fun acc pkgname =>
          match h.readFileListForPackage pkgname with
          | .ok tmp => acc ++ tmp
          | .err _ => acc) init =
        init ++ (realNames.map (fun rn =>
          match h.readFileListForPackage rn with
          | .ok tmp => tmp
          | .err _ => [])).flatten
  | [], init => by simp
  | rn :: rest, init => by
    cases hr : h.readFileListForPackage rn with
    | ok tmp =>
      simp only [List.foldl_cons, hr, List.map_cons, List.flatten]
      rw [remapFold_eq_join h rest (init ++ tmp)]
      simp [List.append_assoc]
    | err p =>
      simp only [List.foldl_cons, hr, List.map_cons, List.flatten]
      rw [remapFold_eq_join h rest init]
      simp

/-- Remap table of the C6 counterexample scenario. -/
def libfooRemap : List (String × List String) :=
  [("libfoo1", ["libfoo1-bin", "libfoo1-data"])]

/-- Package manager of the C6 counterexample: a successful but empty answer
for the logical name, non-empty answers for both real names. -/
def libfooHandler : PackageHandler :=
  { readFileListForPackage := fun n =>
      if n == "libfoo1" then .ok []
      else if n == "libfoo1-bin" then .ok ["/usr/bin/foo"]
      else if n == "libfoo1-data" then .ok ["/usr/share/foo.dat"]
      else .err none
    getType := "dpkg" }

/-- Claim C6 counterexample: the spec scenario — manager type dpkg, the query
for libfoo1 returns an empty list with no error, and the remap table maps
libfoo1 to two real names whose queries would both succeed — yields an empty
resolved file list and issues no sub-query at all (the trace holds only the
original name): the remap fallback fires only on a query error, never on a
successful empty result, so the resolved list is not the concatenation
of the sub-query results. -/
theorem resolver_noRemapOnEmptySuccess :
    GetPackagesInLayerAux libfooRemap "layer0" (reportOfNames ["libfoo1"])
        (some libfooHandler) =
      .ok ([{ packageName := "libfoo1", files := [] }], ["libfoo1"]) := rfl

/-- Claim C6 as amended: when the file-list query for a package name returns
an error (only then), the manager type is dpkg, and the pkgResolved table
maps the name to real names, the resolution retries the query for every real
name — the trace is the name followed by all real names — and the resolved
file list is any part of the failed query's result followed by the
concatenation of the successful sub-queries' results. -/
theorem resolver_remapOnFailure (pkgResolved : List (String × List String))
    (h : PackageHandler) (n : String) (realNames : List String)
    (partFiles : Option (List String))
    (hr : h.readFileListForPackage n = .err partFiles)
    (ht : h.getType = "dpkg")
    (hm : assocLookup pkgResolved n = some realNames) :
    resolveFileListT pkgResolved h n =
      (partFiles.getD [] ++
        (realNames.map (fun rn =>
          match h.readFileListForPackage rn with
          | .ok tmp => tmp
          | .err _ => [])).flatten,
       n :: realNames) := by
  simp [resolveFileListT, hr, hm, ht, remapFold_eq_join]

/-- Remap table of the amended-claim witness. -/
def libbarRemap : List (String × List String) :=
  [("libbar", ["libbar-bin", "libbar-data"])]

/-- Package manager of the amended-claim witness: the logical name fails with
a nil partial result, both real names succeed. -/
def libbarHandler : PackageHandler :=
  { readFileListForPackage := fun n =>
      if n == "libbar" then .err none
      else if n == "libbar-bin" then .ok ["/usr/bin/bar"]
      else if n == "libbar-data" then .ok ["/usr/share/bar.dat"]
      else .err none
    getType := "dpkg" }

theorem resolver_remapOnFailure_witness :
    resolveFileListT libbarRemap libbarHandler "libbar" =
      (["/usr/bin/bar", "/usr/share/bar.dat"],
       ["libbar", "libbar-bin", "libbar-data"]) := by
  rw [resolver_remapOnFailure libbarRemap libbarHandler "libbar"
    ["libbar-bin", "libbar-data"] none rfl rfl rfl]
  rfl

/-- Package manager of the C8 counterexample: every query succeeds with an
empty file list. -/
def emptyListHandler : PackageHandler :=
  { readFileListForPackage := fun _ => .ok []
    getType := "dpkg" }

/-- Claim C8 counterexample: a package name occurring twice whose first query
succeeds with an empty list is queried again at the second occurrence — the
trace shows two underlying queries for one distinct name — because only
non-empty results enter the featureToFileList cache. -/
theorem resolver_requeriesEmptyResult :
    GetPackagesInLayer "layer0" (reportOfNames ["libp", "libp"]) (some emptyListHandler) =
      .ok ([{ packageName := "libp", files := [] }], ["libp", "libp"]) := rfl

/-- Claim C8 as amended: for a package name whose resolution yields a
non-empty file list, any later occurrence within the same pass is served from
the cache: appending one more occurrence of that name to the pass issues no
further underlying query (the trace is unchanged) and the record it produces
carries exactly the files computed at the first occurrence. -/
theorem resolver_cacheHitOnSecondOccurrence (h : PackageHandler) (n : String)
    (ns1 ns2 : List String)
    (hne : (resolveFileListT [] h n).1 ≠ []) :
    ∃ pkgs qs,
      GetPackagesInLayer "layer0" (reportOfNames (ns1 ++ [n] ++ ns2)) (some h) =
        .ok (pkgs, qs) ∧
      GetPackagesInLayer "layer0" (reportOfNames ((ns1 ++ [n] ++ ns2) ++ [n])) (some h) =
        .ok ([{ packageName := n
                files := convertToPkgFiles (resolveFileListT [] h n).1 }], qs) := by
  have hmid : ns1 ++ [n] ++ ns2 = ns1 ++ ([n] ++ ns2) := by
    simp [List.append_assoc]
  set s1 := processNames [] h initResolveState (ns1 ++ [n] ++ ns2) with hs1
  have hcached : ∃ v, assocLookup s1.featureToFileList n = some v := by
    rw [hs1, hmid, processNames_append, processNames_append]
    obtain ⟨v, hv⟩ :=
      processName_self_cached [] h (processNames [] h initResolveState ns1) n hne
    exact ⟨v, processNames_cache_mono [] h ns2 _ n v (by simpa [processNames] using hv)⟩
  obtain ⟨v, hv⟩ := hcached
  have hsound : CacheSound [] h s1 :=
    processNames_cacheSound [] h (ns1 ++ [n] ++ ns2) initResolveState
      (initResolveState_cacheSound [] h)
  have hveq : v = convertToPkgFiles (resolveFileListT [] h n).1 := (hsound n v hv).1
  refine ⟨[s1.linuxPackage], s1.queries, getPackagesAux_names [] h "layer0" _, ?_⟩
  have hstep : processNames [] h initResolveState ((ns1 ++ [n] ++ ns2) ++ [n]) =
      processName [] h s1 n := by
    rw [processNames_append, ← hs1]
    rfl
  rw [GetPackagesInLayer, getPackagesAux_names [] h "layer0" _, hstep,
    processName_hit [] h s1 n v hv, hveq]

theorem resolver_cacheHitOnSecondOccurrence_witness :
    ∃ pkgs qs,
      GetPackagesInLayer "layer0"
          (reportOfNames (["libfoo1"] ++ ["libfoo1-bin"] ++ ["libfoo1-data"]))
          (some libfooHandler) = .ok (pkgs, qs) ∧
      GetPackagesInLayer "layer0"
          (reportOfNames ((["libfoo1"] ++ ["libfoo1-bin"] ++ ["libfoo1-data"]) ++
            ["libfoo1-bin"]))
          (some libfooHandler) =
        .ok ([{ packageName := "libfoo1-bin"
                files := convertToPkgFiles
                  (resolveFileListT [] libfooHandler "libfoo1-bin").1 }],
             qs) :=
  resolver_cacheHitOnSecondOccurrence libfooHandler "libfoo1-bin" ["libfoo1"]
    ["libfoo1-data"] (by decide)

/-- Package manager of the C9 failing input: two packages, each resolving to
its own non-empty file list. -/
def twoPkgHandler : PackageHandler :=
  { readFileListForPackage := fun n =>
      if n == "pkga" then .ok ["/usr/lib/a.so"]
      else if n == "pkgb" then .ok ["/usr/lib/b.so"]
      else .err none
    getType := "dpkg" }

/-- Claim C9 (code bug): two distinct package names both resolve (the trace
shows both queries), yet the returned list holds a single record carrying
only the last resolved package's name and files — the loop writes every
package onto one shared record and appends that record once after both loops
(line 488), so earlier packages are overwritten. -/
theorem resolver_lastWriteWins :
    GetPackagesInLayer "layer0" (reportOfNames ["pkga", "pkgb"]) (some twoPkgHandler) =
      .ok ([{ packageName := "pkgb", files := [{ filename := "/usr/lib/b.so" }] }],
           ["pkga", "pkgb"]) := rfl

/-! ### Credential guard (lines 336-417) -/

/-- Go `RegistryCredentials` (lines 83-91). -/
structure RegistryCredentials where
  authority : String
  username : String
  password : String
  token : String
deriving Repr, DecidableEq

/-- Go `registry` (lines 77-81). -/
structure Registry where
  insecureSkipTLSVerify : Bool
  insecureUseHTTP : Bool
  auth : List RegistryCredentials
deriving Repr, DecidableEq

/-- Go `Application` (lines 25-40), restricted to the configuration fields
relevant here; the remaining fields ride through unmarshal/marshal unchanged
and are never inspected by the credential functions. -/
structure Application where
  output : String
  scope : String
  checkForAppUpdate : Bool
  registry : Registry
deriving Repr, DecidableEq

/-- The yaml library boundary (gopkg.in/yaml.v3), out of scope per the spec:
marshalling is total, unmarshalling either yields an Application or fails.
The real library rejects any document that is not a mapping — in particular a
bare scalar such as a filesystem path — which enters the theorems below as a
hypothesis on this structure. -/
structure YamlLib where
  marshal : Application → String
  unmarshal : String → Except Unit Application

/-- `ioutil.ReadAll(strings.NewReader(s))` yields `s` itself: it reads the
given string, not the contents of any file. Both credential functions build
their unmarshal input this way (lines 341 and 368). -/
def stringsNewReaderReadAll (s : String) : String := s

/-- `ioutil.WriteFile`: last-write-wins update of the path-to-contents map
modelling the files the credential functions touch. -/
def writeFile (fs : List (String × String)) (path content : String) :
    List (String × String) :=
  match fs with
  | [] => [(path, content)]
  | (p, c) :: rest =>
    if p = path then (p, content) :: rest else (p, c) :: writeFile rest path content

/-- `AddCredentialsToAnchoreConfiguratioFile` (lines 336-361). Faithful to
the source: the bytes handed to yaml.Unmarshal are
`ioutil.ReadAll(strings.NewReader(anchoreDirectoryPath + "/config.yaml"))` —
the path string itself, independent of any file contents — and an unmarshal
error returns early having written nothing. On unmarshal success the function
appends the credential entry and writes the marshalled result to
`anchoreDirectoryPath + "/.grype/config.yaml"` (a different path from the one
in the reader). The mutex and the discarded yaml.Marshal error are omitted;
the second component is the returned Go error (`some ()` = non-nil). -/
def AddCredentialsToAnchoreConfiguratioFile (yl : YamlLib) (anchoreDirectoryPath : String)
    (fs : List (String × String)) (username password : String) :
    List (String × String) × Option Unit :=
  let bytes := stringsNewReaderReadAll (anchoreDirectoryPath ++ "/config.yaml")
  match yl.unmarshal bytes with
  | .error _ => (fs, some ())
  | .ok app =>
    let app2 := { app with registry := { app.registry with
      auth := app.registry.auth ++
        [{ authority := "", username := username, password := password, token := "" }] } }
    (writeFile fs (anchoreDirectoryPath ++ "/.grype" ++ "/config.yaml") (yl.marshal app2),
     none)

/-- The removal loop (lines 378-385): delete the first entry whose username
and password both match, then break. -/
def removeFirstMatching (username password : String) :
    List RegistryCredentials → List RegistryCredentials
  | [] => []
  | c :: rest =>
    if username == c.username && password == c.password then rest
    else c :: removeFirstMatching username password rest

/-- `RemoveCredentialsFromAnchoreConfiguratioFile` (lines 363-395); like the
add function its unmarshal input is the path string itself (here with the
`/.grype` component), so the same early-error shape applies. -/
def RemoveCredentialsFromAnchoreConfiguratioFile (yl : YamlLib)
    (anchoreDirectoryPath : String) (fs : List (String × String))
    (username password : String) :
    List (String × String) × Option Unit :=
  let bytes := stringsNewReaderReadAll (anchoreDirectoryPath ++ "/.grype" ++ "/config.yaml")
  match yl.unmarshal bytes with
  | .error _ => (fs, some ())
  | .ok app =>
    let app2 := { app with registry := { app.registry with
      auth := removeFirstMatching username password app.registry.auth } }
    (writeFile fs (anchoreDirectoryPath ++ "/.grype" ++ "/config.yaml") (yl.marshal app2),
     none)

/-- `scanCmd.Credentials` as used by GetAnchoreScanRes. -/
structure Credentials where
  username : String
  password : String
deriving Repr, DecidableEq

/-- Instrumentation: the credential-function calls GetAnchoreScanRes makes. -/
inductive CredCall where
  | addCall (username password : String)
  | removeCall (username password : String)
deriving Repr, DecidableEq

/-- The credential lifecycle of `GetAnchoreScanRes` (lines 397-417): add the
credentials when they are present with non-empty username and password, run
the external scan (its outcome is the external parameter `scanFails`), then
remove them under the same condition — the removal call precedes the error
check, so it happens whether or not the scan failed — and only then return.
Yields the final file state, the ordered calls made, and whether the function
returns an error (exactly when the scan failed; the errors the add/remove
calls themselves return are discarded, and the json.Unmarshal of the scan
output — whose error is ignored at line 413 — is outside this model). -/
def GetAnchoreScanResCredLifecycle (yl : YamlLib) (anchoreDirectoryPath : String)
    (fs0 : List (String × String)) (creds : Option Credentials) (scanFails : Bool) :
    List (String × String) × List CredCall × Bool :=
  match creds with
  | none => (fs0, [], scanFails)
  | some c =>
    if c.username != "" && c.password != "" then
      let fs1 := (AddCredentialsToAnchoreConfiguratioFile yl anchoreDirectoryPath fs0
        c.username c.password).1
      let fs2 := (RemoveCredentialsFromAnchoreConfiguratioFile yl anchoreDirectoryPath fs1
        c.username c.password).1
      (fs2, [.addCall c.username c.password, .removeCall c.username c.password], scanFails)
    else
      (fs0, [], scanFails)

/-- The number of credential entries for (username, password) that a read of
the configuration artifact — the file the credential functions write,
`anchoreDirectoryPath + "/.grype/config.yaml"` — shows under the given yaml
library; a missing or unparsable artifact shows zero entries. -/
def artifactCredEntries (yl : YamlLib) (anchoreDirectoryPath : String)
    (fs : List (String × String)) (username password : String) : Nat :=
  match assocLookup fs (anchoreDirectoryPath ++ "/.grype" ++ "/config.yaml") with
  | none => 0
  | some content =>
    match yl.unmarshal content with
    | .error _ => 0
    | .ok app =>
      (app.registry.auth.filter (fun c =>
        c.username == username && c.password == password)).length

/-- Claim C4: with non-empty username and password, the credential-removal
call is made after the scan regardless of the scan outcome (first conjunct,
quantified over both outcomes); and after a failed scan an artifact that
started with zero entries for the pair still shows zero entries — no
credentials are left resident. The hypotheses hAdd and hRem state the yaml
library's actual behaviour on the two strings the functions unmarshal (path
strings, which a scalar-rejecting unmarshaller refuses), under which neither
call writes anything, so the artifact state is preserved exactly. -/
theorem credentialsRemovedAfterFailedScan (yl : YamlLib) (dir : String)
    (fs0 : List (String × String)) (u p : String)
    (hu : u ≠ "") (hp : p ≠ "")
    (hAdd : yl.unmarshal (stringsNewReaderReadAll (dir ++ "/config.yaml")) = .error ())
    (hRem : yl.unmarshal (stringsNewReaderReadAll (dir ++ "/.grype" ++ "/config.yaml")) =
      .error ())
    (h0 : artifactCredEntries yl dir fs0 u p = 0) :
    (∀ scanFails,
      (GetAnchoreScanResCredLifecycle yl dir fs0 (some { username := u, password := p })
        scanFails).2.1 = [.addCall u p, .removeCall u p]) ∧
    artifactCredEntries yl dir
      (GetAnchoreScanResCredLifecycle yl dir fs0 (some { username := u, password := p })
        true).1 u p = 0 := by
  constructor
  · intro scanFails
    simp [GetAnchoreScanResCredLifecycle, hu, hp]
  · simp [GetAnchoreScanResCredLifecycle,
      AddCredentialsToAnchoreConfiguratioFile, hAdd,
      RemoveCredentialsFromAnchoreConfiguratioFile, hRem, hu, hp, h0]

/-- The bootstrap configuration contents (CreateAnchoreResourcesDirectoryAndFiles
writes a configuration with an empty auth list, lines 309-328). -/
def demoApp : Application :=
  { output := "json"
    scope := "Squashed"
    checkForAppUpdate := true
    registry := { insecureSkipTLSVerify := false, insecureUseHTTP := false, auth := [] } }

/-- A miniature stand-in for the yaml boundary used by the witnesses: exactly
one string parses (the bootstrap artifact contents); everything else — in
particular a bare filesystem path — is rejected, as yaml.v3 rejects a scalar
document when decoding into a struct. -/
def demoYaml : YamlLib :=
  { marshal := fun _ => "marshalled-config"
    unmarshal := fun s => if s = "bootstrap-config" then .ok demoApp else .error () }

theorem credentialsRemovedAfterFailedScan_witness :
    (∀ scanFails,
      (GetAnchoreScanResCredLifecycle demoYaml "/work/anchore-resources"
        [("/work/anchore-resources/.grype/config.yaml", "bootstrap-config")]
        (some { username := "user1", password := "pass1" }) scanFails).2.1 =
      [.addCall "user1" "pass1", .removeCall "user1" "pass1"]) ∧
    artifactCredEntries demoYaml "/work/anchore-resources"
      (GetAnchoreScanResCredLifecycle demoYaml "/work/anchore-resources"
        [("/work/anchore-resources/.grype/config.yaml", "bootstrap-config")]
        (some { username := "user1", password := "pass1" }) true).1 "user1" "pass1" = 0 :=
  credentialsRemovedAfterFailedScan demoYaml "/work/anchore-resources"
    [("/work/anchore-resources/.grype/config.yaml", "bootstrap-config")]
    "user1" "pass1" (by decide) (by decide) rfl rfl (by decide)

/-- Claim C5 (code bug): the add function never reads the artifact contents —
the string it unmarshals is the constant path string, independent of the file
state — so under a yaml library that (like yaml.v3) rejects that scalar, the
call returns an error and leaves every file untouched, for every username and
password including non-empty ones, instead of appending a credential entry
and writing the configuration back. -/
theorem addCredentials_neverMutatesArtifact (yl : YamlLib) (dir : String)
    (fs : List (String × String)) (u p : String)
    (hAdd : yl.unmarshal (stringsNewReaderReadAll (dir ++ "/config.yaml")) = .error ()) :
    AddCredentialsToAnchoreConfiguratioFile yl dir fs u p = (fs, some ()) := by
  simp [AddCredentialsToAnchoreConfiguratioFile, hAdd]

theorem addCredentials_neverMutatesArtifact_witness :
    AddCredentialsToAnchoreConfiguratioFile demoYaml "/work/anchore-resources"
      [("/work/anchore-resources/.grype/config.yaml", "bootstrap-config")]
      "user1" "pass1" =
      ([("/work/anchore-resources/.grype/config.yaml", "bootstrap-config")], some ()) :=
  addCredentials_neverMutatesArtifact demoYaml "/work/anchore-resources"
    [("/work/anchore-resources/.grype/config.yaml", "bootstrap-config")]
    "user1" "pass1" rfl

end KubeVuln
